import Mathlib

/-
Verification development for the SketchGraphs graph-model training
orchestrator (sketchgraphs_models/graph/train/__init__.py).

The embedding models:
  * the learning-rate schedule `_lr_schedule` (warmup + step decay),
  * the optimizer lookup table `_opt_factories`,
  * the distributed batch-size partition and leadership decision,
  * checkpoint resume with the "module." key-stripping,
  * the epoch coordinator loop,
  * the path-resolution and persistence step of `run`.

Python strings that are sliced are modelled as `List Char`; real-valued
arithmetic is modelled over `ℚ`; Python `//` on non-negative integers is
`Nat` division; Python dicts carrying model parameters are association
lists `List (List Char × α)`.
-/

namespace SketchGraphs

/-- Model of `bisect.bisect_right decay_epochs epoch` as used in
`_lr_schedule`: the index of the first element exceeding `x`, scanning from
the left.  For lists satisfying the sortedness invariant the spec imposes on
`decay_epochs`, this is exactly Python's `bisect_right`. -/
def bisect_right : List ℕ → ℕ → ℕ
  | [], _ => 0
  | t :: ts, x => if t ≤ x then bisect_right ts x + 1 else 0

/-- Embedding of `_lr_schedule(epoch, warmup_epochs, decay_epochs)`:
`min((epoch + 1) / warmup_epochs, 1) * 0.1 ** bisect_right(decay_epochs, epoch)`.
The Python default `decay_epochs=None` becomes `[]` in the body; callers of
the embedding pass `[]` directly. -/
def _lr_schedule (epoch : ℕ) (warmup_epochs : ℕ) (decay_epochs : List ℕ) : ℚ :=
  let warmup_factor : ℚ := min ((epoch + 1 : ℚ) / warmup_epochs) 1
  let decay_factor : ℚ := (1 / 10 : ℚ) ^ bisect_right decay_epochs epoch
  warmup_factor * decay_factor

/-- The closed set of optimizer kinds in the `_opt_factories` table. -/
inductive OptKind
  | sgd
  | adam
  | adamax
  | rms
deriving DecidableEq

/-- Embedding of the `_opt_factories` dict: maps the optimizer-kind
identifier to its constructor.  A missing key is `none` (Python raises
`KeyError` at the lookup `_opt_factories[args['optimizer']]`). -/
def _opt_factories : String → Option OptKind := fun s =>
  if s = "sgd" then some OptKind.sgd
  else if s = "adam" then some OptKind.adam
  else if s = "adamax" then some OptKind.adamax
  else if s = "rms" then some OptKind.rms
  else none

/-- What `train` builds at the optimizer/scheduler binding step: the chosen
optimizer kind, the effective learning rate passed to the constructor, and
the per-epoch multiplier function installed in the `LambdaLR` scheduler. -/
structure OptimizerBinding where
  kind : OptKind
  lr : ℚ
  schedule : ℕ → ℚ

/-- Embedding of the two lines
`opt = _opt_factories[args['optimizer']](model.parameters(), lr=args['learning_rate'] * 16)`
and
`scheduler = LambdaLR(opt, partial(_lr_schedule, warmup_epochs=5, decay_epochs=[20, 40]))`. -/
def bind_optimizer (optimizer_name : String) (learning_rate : ℚ) : Option OptimizerBinding :=
  (_opt_factories optimizer_name).map fun k =>
    { kind := k
      lr := learning_rate * 16
      schedule := fun epoch => _lr_schedule epoch 5 [20, 40] }

/-- The distributed context record: `{world_size, local_rank, global_rank}`.
Absent (`none`) in single-process mode. -/
structure DistContext where
  world_size : ℕ
  local_rank : ℕ
  global_rank : ℕ
deriving DecidableEq

/-- Modelled from the spec: `distributed_utils.is_leader` is not under `src/`
(only its call sites in `train` and `run` are).  The spec states that
leadership holds iff `global_rank == 0`, and that an absent `dist_context`
implies leader. -/
def is_leader : Option DistContext → Bool
  | none => true
  | some c => c.global_rank == 0

/-- Embedding of the batch-size partition in `train`:
`batch_size = total_batch_size // dist_config.world_size` when a distributed
context is present, else `batch_size = total_batch_size`.  Python `//` on
non-negative integers is `Nat` division. -/
def participant_batch_size (total_batch_size : ℕ) : Option DistContext → ℕ
  | some c => total_batch_size / c.world_size
  | none => total_batch_size

/-- Embedding of a checkpoint record as loaded by `train` from
`args['model_state']`: the `model` entry maps parameter keys to values
(keys are Python strings, modelled as `List Char`), plus the `epoch` and
`global_step` counters. -/
structure Checkpoint (α : Type) where
  model : List (List Char × α)
  epoch : ℕ
  global_step : ℕ

/-- Embedding of the key-rewriting loop in `train`:
`for key in state['model']: new_state_dict[key[7:]] = state['model'][key]`.
Every key unconditionally loses its first 7 characters. -/
def strip_module_keys {α : Type} (state : List (List Char × α)) : List (List Char × α) :=
  state.map fun kv => (kv.1.drop 7, kv.2)

/-- The fixed 7-character distributed-wrapper marker `"module."` named in
the comment in `train` (`# Remove "module." from beginning of keys`). -/
def module_marker : List Char := ['m', 'o', 'd', 'u', 'l', 'e', '.']

/-- Modelled from the spec: the distributed wrapper
(`SingleDeviceDistributedParallel`, not under `src/`) saves parameter keys
carrying the fixed 7-character marker which the comment in `train` names
`"module."`; saving from a wrapped model prepends that marker to every key. -/
def wrap_module_keys {α : Type} (state : List (List Char × α)) : List (List Char × α) :=
  state.map fun kv => (module_marker ++ kv.1, kv.2)

/-- Embedding of the resume branch of `train`: with no checkpoint path the
counters are `(epoch=0, global_step=0)`, otherwise they come from the
checkpoint record. -/
def resume_counters {α : Type} : Option (Checkpoint α) → ℕ × ℕ
  | none => (0, 0)
  | some c => (c.epoch, c.global_step)

/-- Embedding of the parameter state the model holds after the resume branch
of `train`: the freshly built parameters when no checkpoint is given,
otherwise the checkpoint's `model` dict with each key stripped of its first
7 characters (`model.load_state_dict(state['model'])`). -/
def loaded_state {α : Type} (fresh : List (List Char × α)) :
    Option (Checkpoint α) → List (List Char × α)
  | none => fresh
  | some c => strip_module_keys c.model

/-- Embedding of the coordinator loop of `train`:
`while epoch < args['num_epochs']: epoch, global_step = harness.train_epochs(epoch, global_step)`.
The harness is an abstract function from `(epoch, global_step)` to the
updated pair.  `fuel` bounds the number of iterations so the definition is
total; `none` means the fuel ran out with the guard still true.  The result
also counts the number of harness calls made. -/
def train_loop (harness : ℕ → ℕ → ℕ × ℕ) (num_epochs : ℕ) :
    ℕ → ℕ → ℕ → ℕ → Option (ℕ × ℕ × ℕ)
  | 0, epoch, global_step, calls =>
      if epoch < num_epochs then none else some (epoch, global_step, calls)
  | fuel + 1, epoch, global_step, calls =>
      if epoch < num_epochs then
        train_loop harness num_epochs fuel (harness epoch global_step).1
          (harness epoch global_step).2 (calls + 1)
      else some (epoch, global_step, calls)

/-- The configuration fields of `args` that `train` reads at setup time. -/
structure TrainArgs where
  batch_size : ℕ
  learning_rate : ℚ
  optimizer : String
  num_epochs : ℕ

/-- The setup state `train` reaches before entering the epoch loop. -/
structure TrainSetup where
  batch_size : ℕ
  opt : OptimizerBinding
  leader : Bool

/-- The errors raised in the setup portion of `train` among the batch-size
partition and optimizer binding steps: only the dict lookup
`_opt_factories[args['optimizer']]` can raise (Python `KeyError`). -/
inductive TrainError
  | unknown_optimizer (name : String)

/-- Embedding of the setup portion of `train`: partition the batch size,
bind the optimizer and scheduler, decide leadership.  The batch-size
partition is total: a non-divisible `total_batch_size` is silently
truncated, never rejected. -/
def train_setup (args : TrainArgs) (dist_config : Option DistContext) :
    Except TrainError TrainSetup :=
  let batch_size := participant_batch_size args.batch_size dist_config
  match bind_optimizer args.optimizer args.learning_rate with
  | none => Except.error (TrainError.unknown_optimizer args.optimizer)
  | some opt => Except.ok { batch_size := batch_size, opt := opt, leader := is_leader dist_config }

/-- Embedding of `_ARGS_PATH_KEYS`: the whitelist of path-valued
configuration fields resolved to absolute paths in `run`. -/
def _ARGS_PATH_KEYS : List String :=
  ["output_dir", "dataset_train", "dataset_auxiliary", "dataset_test", "model_state"]

/-- Modelled from the spec: `os.path.abspath` (standard library) on a path
with no dot segments — an already absolute path (leading `/`) is returned
unchanged, a relative path is joined onto the current working directory.
Dot-segment normalization is not modelled; no claim depends on it. -/
def abspath (cwd p : List Char) : List Char :=
  if p.head? = some '/' then p else cwd ++ '/' :: p

/-- Embedding of the path-resolution loop in `run`:
`for key in _ARGS_PATH_KEYS: if args[key] is not None: args[key] = os.path.abspath(args[key])`.
`args` is modelled as an association list from field name to optional
path string (`none` models Python `None`). -/
def resolve_path_args (cwd : List Char) (args : List (String × Option (List Char))) :
    List (String × Option (List Char)) :=
  args.map fun kv =>
    if kv.1 ∈ _ARGS_PATH_KEYS then (kv.1, kv.2.map (abspath cwd)) else kv

/-- Embedding of the configuration handling of `run`: the in-place path
resolution mutates `args`, and the mutated record is what
`json.dump(args, file_)` persists.  Returns the pair
(in-memory configuration passed on to `train`, persisted configuration). -/
def run_config_step (cwd : List Char) (args : List (String × Option (List Char))) :
    List (String × Option (List Char)) × List (String × Option (List Char)) :=
  let resolved := resolve_path_args cwd args
  (resolved, resolved)

/-! Helper lemmas. -/

theorem bisect_right_countP (l : List ℕ) (x : ℕ) (hs : l.Pairwise (· ≤ ·)) :
    bisect_right l x = l.countP fun t => decide (t ≤ x) := by
  induction l with
  | nil => rfl
  | cons t ts ih =>
    rcases List.pairwise_cons.mp hs with ⟨hle, hts⟩
    by_cases h : t ≤ x
    · simp [bisect_right, h, List.countP_cons, ih hts, Nat.add_comm]
    · have hzero : ts.countP (fun t => decide (t ≤ x)) = 0 := by
        rw [List.countP_eq_zero]
        intro a ha
        simp only [decide_eq_true_eq]
        intro hax
        exact h (le_trans (hle a ha) hax)
      simp [bisect_right, h, List.countP_cons, hzero]

theorem bisect_right_mono (l : List ℕ) {x y : ℕ} (hxy : x ≤ y) :
    bisect_right l x ≤ bisect_right l y := by
  induction l with
  | nil => exact le_refl 0
  | cons t ts ih =>
    by_cases h : t ≤ x
    · simp [bisect_right, h, le_trans h hxy, ih]
    · by_cases h' : t ≤ y <;> simp [bisect_right, h, h']

/-! Claim theorems. -/

/-- C2: `_lr_schedule` returns `min((epoch + 1) / warmup_epochs, 1)` times
`0.1 ^ (number of thresholds in decay_epochs that are ≤ epoch)` (a threshold
equal to `epoch` counts), and at the concrete points: with
`warmup_epochs = 5`, `decay_epochs = [20, 40]` it returns 1 at epoch 4,
0.1 at epoch 20, 0.01 at epoch 40, and `_lr_schedule 0 5 [] = 0.2`. -/
theorem C2_lr_schedule (epoch warmup_epochs : ℕ) (decay_epochs : List ℕ)
    (hw : 0 < warmup_epochs) (hs : decay_epochs.Pairwise (· ≤ ·)) :
    _lr_schedule epoch warmup_epochs decay_epochs =
      min ((epoch + 1 : ℚ) / warmup_epochs) 1 *
        (1 / 10 : ℚ) ^ (decay_epochs.countP fun t => decide (t ≤ epoch)) ∧
    _lr_schedule 4 5 [20, 40] = 1 ∧
    _lr_schedule 20 5 [20, 40] = 1 / 10 ∧
    _lr_schedule 40 5 [20, 40] = 1 / 100 ∧
    _lr_schedule 0 5 [] = 1 / 5 := by
  refine ⟨?_, ?_, ?_, ?_, ?_⟩
  · rw [_lr_schedule, bisect_right_countP decay_epochs epoch hs]
  · norm_num [_lr_schedule, bisect_right]
  · norm_num [_lr_schedule, bisect_right]
  · norm_num [_lr_schedule, bisect_right]
  · norm_num [_lr_schedule, bisect_right]

theorem C2_lr_schedule_witness :
    _lr_schedule 4 5 [20, 40] =
      min ((4 + 1 : ℚ) / 5) 1 *
        (1 / 10 : ℚ) ^ ([20, 40].countP fun t => decide (t ≤ 4)) ∧
    _lr_schedule 4 5 [20, 40] = 1 ∧
    _lr_schedule 20 5 [20, 40] = 1 / 10 ∧
    _lr_schedule 40 5 [20, 40] = 1 / 100 ∧
    _lr_schedule 0 5 [] = 1 / 5 :=
  C2_lr_schedule 4 5 [20, 40] (by decide) (by decide)

/-- C3: with no distributed context, the per-participant batch size is the
total batch size and the participant is the leader; with a context, the
per-participant batch size is `total_batch_size // world_size` (integer
truncation: 2048 with world size 4 gives 512, with world size 3 gives 682)
and the participant is leader iff `global_rank == 0`. -/
theorem C3_partition :
    (∀ t : ℕ, participant_batch_size t none = t ∧ is_leader none = true) ∧
    (∀ (t : ℕ) (c : DistContext),
      participant_batch_size t (some c) = t / c.world_size ∧
      (is_leader (some c) = true ↔ c.global_rank = 0)) ∧
    participant_batch_size 2048 (some ⟨4, 0, 0⟩) = 512 ∧
    participant_batch_size 2048 (some ⟨3, 0, 0⟩) = 682 := by
  refine ⟨fun t => ⟨rfl, rfl⟩, fun t c => ⟨rfl, ?_⟩, by decide, by decide⟩
  simp [is_leader]

/-- C6: the optimizer lookup fails exactly on identifiers outside the
closed set `{sgd, adam, adamax, rms}` (Python raises `KeyError` at the dict
lookup, realizing the spec's `ConfigurationError`), and each identifier in
the set yields the optimizer of the corresponding kind. -/
theorem C6_optimizer_lookup :
    (∀ (s : String) (lr : ℚ),
      bind_optimizer s lr = none ↔ s ∉ ["sgd", "adam", "adamax", "rms"]) ∧
    _opt_factories "sgd" = some OptKind.sgd ∧
    _opt_factories "adam" = some OptKind.adam ∧
    _opt_factories "adamax" = some OptKind.adamax ∧
    _opt_factories "rms" = some OptKind.rms := by
  refine ⟨fun s lr => ?_, rfl, rfl, rfl, rfl⟩
  rw [bind_optimizer, Option.map_eq_none']
  unfold _opt_factories
  split_ifs with h1 h2 h3 h4 <;> simp_all

theorem train_loop_exit (harness : ℕ → ℕ → ℕ × ℕ) (N fuel e s c : ℕ) (h : N ≤ e) :
    train_loop harness N fuel e s c = some (e, s, c) := by
  cases fuel with
  | zero => simp [train_loop, Nat.not_lt.mpr h]
  | succ f => simp [train_loop, Nat.not_lt.mpr h]

theorem train_loop_run (harness : ℕ → ℕ → ℕ × ℕ) (N : ℕ)
    (hinc : ∀ e s, (harness e s).1 = e + 1) :
    ∀ fuel e s c, e ≤ N → N ≤ e + fuel →
      ∃ gs, train_loop harness N fuel e s c = some (N, gs, c + (N - e)) := by
  intro fuel
  induction fuel with
  | zero =>
    intro e s c hle hge
    have he : e = N := le_antisymm hle (by omega)
    subst he
    exact ⟨s, by simp [train_loop_exit harness e 0 e s c (le_refl e)]⟩
  | succ f ih =>
    intro e s c hle hge
    by_cases hlt : e < N
    · rw [train_loop, if_pos hlt]
      obtain ⟨gs, hgs⟩ :=
        ih (harness e s).1 (harness e s).2 (c + 1) (by rw [hinc]; omega) (by rw [hinc]; omega)
      refine ⟨gs, ?_⟩
      rw [hgs, hinc]
      have : c + 1 + (N - (e + 1)) = c + (N - e) := by omega
      rw [this]
    · have he : e = N := le_antisymm hle (Nat.not_lt.mp hlt)
      subst he
      exact ⟨s, by simp [train_loop_exit harness e (f + 1) e s c (le_refl e)]⟩

/-- C1: if the coordinator loop starts at `epoch = 0` and each harness call
increases the epoch by exactly 1, then the loop terminates within
`num_epochs` iterations having made exactly `num_epochs` harness calls and
ending at `epoch = num_epochs`; more generally the loop returns immediately
exactly when `epoch ≥ num_epochs`, and performs one harness call whenever
`epoch < num_epochs`. -/
theorem C1_coordinator_loop (harness : ℕ → ℕ → ℕ × ℕ) (N : ℕ)
    (hinc : ∀ e s, (harness e s).1 = e + 1) :
    (∃ gs, train_loop harness N N 0 0 0 = some (N, gs, N)) ∧
    (∀ fuel e s c, N ≤ e → train_loop harness N fuel e s c = some (e, s, c)) ∧
    (∀ fuel e s c, e < N →
      train_loop harness N (fuel + 1) e s c =
        train_loop harness N fuel (harness e s).1 (harness e s).2 (c + 1)) := by
  refine ⟨?_, ?_, ?_⟩
  · obtain ⟨gs, hgs⟩ := train_loop_run harness N hinc N 0 0 0 (Nat.zero_le N) (by omega)
    exact ⟨gs, by simpa using hgs⟩
  · intro fuel e s c h
    exact train_loop_exit harness N fuel e s c h
  · intro fuel e s c h
    rw [train_loop, if_pos h]

theorem C1_coordinator_loop_witness :
    (∃ gs, train_loop (fun e s => (e + 1, s + 10)) 3 3 0 0 0 = some (3, gs, 3)) ∧
    (∀ fuel e s c, 3 ≤ e → train_loop (fun e s => (e + 1, s + 10)) 3 fuel e s c = some (e, s, c)) ∧
    (∀ fuel e s c, e < 3 →
      train_loop (fun e s => (e + 1, s + 10)) 3 (fuel + 1) e s c =
        train_loop (fun e s => (e + 1, s + 10)) 3 fuel
          ((fun (e : ℕ) (s : ℕ) => (e + 1, s + 10)) e s).1
          ((fun (e : ℕ) (s : ℕ) => (e + 1, s + 10)) e s).2 (c + 1)) :=
  C1_coordinator_loop (fun e s => (e + 1, s + 10)) 3 (fun _ _ => rfl)

/-- C4: with no checkpoint path the resumed counters are `(0, 0)`; and a
checkpoint saved from a wrapped model at counters `(e, s)` resumes to
counters `(e, s)` with the original parameter values recovered exactly,
the 7-character wrapper marker being stripped from every key. -/
theorem C4_resume {α : Type} (params : List (List Char × α)) (e s : ℕ) :
    resume_counters (none : Option (Checkpoint α)) = (0, 0) ∧
    resume_counters (some ⟨wrap_module_keys params, e, s⟩) = (e, s) ∧
    loaded_state params (some ⟨wrap_module_keys params, e, s⟩) = params := by
  refine ⟨rfl, rfl, ?_⟩
  show strip_module_keys (wrap_module_keys params) = params
  rw [strip_module_keys, wrap_module_keys, List.map_map]
  have : ∀ kv : List Char × α,
      ((module_marker ++ kv.1).drop 7, kv.2) = kv := by
    intro kv
    have hlen : module_marker.length = 7 := by decide
    rw [← hlen, List.drop_left]
  calc params.map ((fun kv : List Char × α => (kv.1.drop 7, kv.2)) ∘
          fun kv => (module_marker ++ kv.1, kv.2))
      = params.map id := List.map_congr_left fun kv _ => this kv
    _ = params := List.map_id params

/-- C5 counterexample: `total_batch_size = 2048` is not divisible by
`world_size = 3`, yet `train` raises no error: setup succeeds and proceeds
with the truncated per-participant batch size 682. -/
theorem C5_counterexample :
    ¬ (3 ∣ 2048) ∧
    train_setup
        { batch_size := 2048, learning_rate := 1, optimizer := "adam", num_epochs := 60 }
        (some ⟨3, 1, 1⟩) =
      Except.ok
        { batch_size := 682
          opt := { kind := OptKind.adam, lr := 1 * 16
                   schedule := fun epoch => _lr_schedule epoch 5 [20, 40] }
          leader := false } :=
  ⟨by decide, rfl⟩

/-- C5 amended: in a distributed run whose total batch size is not divisible
by the world size, the code does not fail: whenever the optimizer identifier
is known, setup succeeds with per-participant batch size
`total_batch_size // world_size` (silent integer truncation), and training
proceeds. -/
theorem C5_truncation (args : TrainArgs) (c : DistContext) (k : OptKind)
    (h : _opt_factories args.optimizer = some k) :
    train_setup args (some c) =
      Except.ok
        { batch_size := args.batch_size / c.world_size
          opt := { kind := k, lr := args.learning_rate * 16
                   schedule := fun epoch => _lr_schedule epoch 5 [20, 40] }
          leader := is_leader (some c) } := by
  rw [train_setup]
  rw [show bind_optimizer args.optimizer args.learning_rate =
        some { kind := k, lr := args.learning_rate * 16
               schedule := fun epoch => _lr_schedule epoch 5 [20, 40] } by
    rw [bind_optimizer, h, Option.map_some']]
  rfl

theorem C5_truncation_witness :
    train_setup
        { batch_size := 2048, learning_rate := 1, optimizer := "sgd", num_epochs := 60 }
        (some ⟨3, 0, 0⟩) =
      Except.ok
        { batch_size := 2048 / 3
          opt := { kind := OptKind.sgd, lr := 1 * 16
                   schedule := fun epoch => _lr_schedule epoch 5 [20, 40] }
          leader := is_leader (some ⟨3, 0, 0⟩) } :=
  C5_truncation
    { batch_size := 2048, learning_rate := 1, optimizer := "sgd", num_epochs := 60 }
    ⟨3, 0, 0⟩ OptKind.sgd rfl

/-- C9: whenever the optimizer binding succeeds, the optimizer is
constructed with effective learning rate `base_rate * 16`, and the installed
per-epoch multiplier is exactly `_lr_schedule` with `warmup_epochs = 5` and
`decay_epochs = [20, 40]`. -/
theorem C9_binding (optimizer_name : String) (learning_rate : ℚ) (b : OptimizerBinding)
    (h : bind_optimizer optimizer_name learning_rate = some b) :
    b.lr = learning_rate * 16 ∧
    b.schedule = fun epoch => _lr_schedule epoch 5 [20, 40] := by
  rw [bind_optimizer] at h
  obtain ⟨k, hk, hb⟩ := Option.map_eq_some'.mp h
  subst hb
  exact ⟨rfl, rfl⟩

theorem C9_binding_witness :
    ({ kind := OptKind.adam, lr := 1 * 16
       schedule := fun epoch => _lr_schedule epoch 5 [20, 40] } : OptimizerBinding).lr =
        1 * 16 ∧
    ({ kind := OptKind.adam, lr := 1 * 16
       schedule := fun epoch => _lr_schedule epoch 5 [20, 40] } : OptimizerBinding).schedule =
      fun epoch => _lr_schedule epoch 5 [20, 40] :=
  C9_binding "adam" 1
    { kind := OptKind.adam, lr := 1 * 16
      schedule := fun epoch => _lr_schedule epoch 5 [20, 40] } rfl

/-- C8: for positive warmup and strictly increasing decay thresholds the
schedule value lies in `(0, 1]`; and with `warmup_epochs = 5`,
`decay_epochs = [20, 40]` the schedule is non-increasing once warmup has
completed (`4 ≤ e1 ≤ e2` implies `schedule e2 ≤ schedule e1`).  Purity and
determinism hold by construction: the embedding is a function of its
arguments alone. -/
theorem C8_schedule_bounds (epoch warmup_epochs : ℕ) (decay_epochs : List ℕ)
    (hw : 0 < warmup_epochs) (hs : List.Chain' (· < ·) decay_epochs) :
    (0 < _lr_schedule epoch warmup_epochs decay_epochs ∧
      _lr_schedule epoch warmup_epochs decay_epochs ≤ 1) ∧
    (∀ e1 e2 : ℕ, 4 ≤ e1 → e1 ≤ e2 →
      _lr_schedule e2 5 [20, 40] ≤ _lr_schedule e1 5 [20, 40]) := by
  have hW : (0 : ℚ) < warmup_epochs := by exact_mod_cast hw
  have hwpos : 0 < min ((epoch + 1 : ℚ) / warmup_epochs) 1 :=
    lt_min (div_pos (by positivity) hW) one_pos
  have hdpos : 0 < (1 / 10 : ℚ) ^ bisect_right decay_epochs epoch :=
    pow_pos (by norm_num) _
  refine ⟨⟨?_, ?_⟩, ?_⟩
  · exact mul_pos hwpos hdpos
  · exact mul_le_one₀ (min_le_right _ _) (le_of_lt hdpos)
      (pow_le_one₀ (by norm_num) (by norm_num))
  · intro e1 e2 h4 h12
    have key : ∀ e : ℕ, 4 ≤ e →
        _lr_schedule e 5 [20, 40] = (1 / 10 : ℚ) ^ bisect_right [20, 40] e := by
      intro e he
      have h5 : (5 : ℚ) ≤ (e : ℚ) + 1 := by
        have : (4 : ℚ) ≤ (e : ℚ) := by exact_mod_cast he
        linarith
      have hmin : min ((e + 1 : ℚ) / 5) 1 = 1 :=
        min_eq_right ((le_div_iff₀ (by norm_num)).mpr (by linarith))
      simp only [_lr_schedule]
      rw [show ((5 : ℕ) : ℚ) = (5 : ℚ) by norm_num, hmin, one_mul]
    rw [key e1 h4, key e2 (le_trans h4 h12)]
    exact pow_le_pow_of_le_one (by norm_num) (by norm_num)
      (bisect_right_mono [20, 40] h12)

theorem C8_schedule_bounds_witness :
    (0 < _lr_schedule 0 5 [20, 40] ∧ _lr_schedule 0 5 [20, 40] ≤ 1) ∧
    (∀ e1 e2 : ℕ, 4 ≤ e1 → e1 ≤ e2 →
      _lr_schedule e2 5 [20, 40] ≤ _lr_schedule e1 5 [20, 40]) :=
  C8_schedule_bounds 0 5 [20, 40] (by decide)
    (List.chain'_cons.mpr ⟨by norm_num, List.chain'_singleton 40⟩)

theorem abspath_idem (cwd : List Char) (h : cwd.head? = some '/') (p : List Char) :
    abspath cwd (abspath cwd p) = abspath cwd p := by
  by_cases hp : p.head? = some '/'
  · simp only [abspath, if_pos hp]
  · have habs : (cwd ++ '/' :: p).head? = some '/' := by
      cases cwd with
      | nil => simp at h
      | cons c cs =>
        simp only [List.head?_cons, Option.some.injEq] at h
        simp [h]
    simp only [abspath, if_neg hp, if_pos habs]

theorem resolve_path_args_idem (cwd : List Char) (h : cwd.head? = some '/')
    (args : List (String × Option (List Char))) :
    resolve_path_args cwd (resolve_path_args cwd args) = resolve_path_args cwd args := by
  induction args with
  | nil => rfl
  | cons kv rest ih =>
    obtain ⟨k, v⟩ := kv
    by_cases hk : k ∈ _ARGS_PATH_KEYS
    · cases v with
      | none => simp [resolve_path_args, hk] at ih ⊢; exact ih
      | some p =>
        simp [resolve_path_args, hk, abspath_idem cwd h] at ih ⊢
        exact ih
    · simp [resolve_path_args, hk] at ih ⊢
      exact ih

/-- C7 counterexample: `run` mutates the configuration record in place
(path resolution), so the persisted record is not verbatim the
configuration created from user input: with working directory `/w` and a
relative `output_dir` of `out`, the persisted record holds `/w/out`. -/
theorem C7_counterexample :
    (run_config_step ['/', 'w'] [("output_dir", some ['o', 'u', 't'])]).2 ≠
      [("output_dir", some ['o', 'u', 't'])] := by
  decide

/-- C7 amended: the configuration record is mutated exactly once, at run
start, replacing each whitelisted path-valued field by its absolute path;
the persisted record is verbatim this resolved configuration (identical to
the in-memory configuration used for the rest of the run), fields outside
the whitelist are unchanged, and the resolution is idempotent — no further
mutation occurs. -/
theorem C7_path_resolution (cwd : List Char) (args : List (String × Option (List Char)))
    (h : cwd.head? = some '/') :
    (run_config_step cwd args).2 = (run_config_step cwd args).1 ∧
    (∀ kv ∈ args, kv.1 ∉ _ARGS_PATH_KEYS → kv ∈ (run_config_step cwd args).1) ∧
    resolve_path_args cwd (run_config_step cwd args).1 = (run_config_step cwd args).1 := by
  refine ⟨rfl, ?_, ?_⟩
  · intro kv hmem hnot
    exact List.mem_map.mpr ⟨kv, hmem, if_neg hnot⟩
  · exact resolve_path_args_idem cwd h args

theorem C7_path_resolution_witness :
    ((run_config_step ['/'] [("seed", some ['7'])]).2 =
      (run_config_step ['/'] [("seed", some ['7'])]).1) ∧
    (∀ kv ∈ [("seed", some ['7'])], kv.1 ∉ _ARGS_PATH_KEYS →
      kv ∈ (run_config_step ['/'] [("seed", some ['7'])]).1) ∧
    resolve_path_args ['/'] (run_config_step ['/'] [("seed", some ['7'])]).1 =
      (run_config_step ['/'] [("seed", some ['7'])]).1 :=
  C7_path_resolution ['/'] [("seed", some ['7'])] rfl

theorem drop7_keys_ne (S : List (List Char)) (h : ∃ k ∈ S, k ≠ []) :
    (S.map (List.drop 7)).toFinset ≠ S.toFinset := by
  obtain ⟨k1, hk1, hk1ne⟩ := h
  intro heq
  have hne : (S.toFinset.image List.length).Nonempty :=
    ⟨k1.length, Finset.mem_image_of_mem _ (List.mem_toFinset.mpr hk1)⟩
  obtain ⟨k, hk, hklen⟩ :=
    Finset.mem_image.mp (Finset.max'_mem (S.toFinset.image List.length) hne)
  have hn1 : 1 ≤ (S.toFinset.image List.length).max' hne := by
    have hmem1 : k1.length ∈ S.toFinset.image List.length :=
      Finset.mem_image_of_mem _ (List.mem_toFinset.mpr hk1)
    have hpos : 0 < k1.length := List.length_pos.mpr hk1ne
    have := Finset.le_max' _ _ hmem1
    omega
  have hkL : k ∈ (S.map (List.drop 7)).toFinset := heq ▸ hk
  obtain ⟨k', hk', hdrop⟩ := List.mem_map.mp (List.mem_toFinset.mp hkL)
  have hlen' : k'.length ≤ (S.toFinset.image List.length).max' hne :=
    Finset.le_max' _ _ (Finset.mem_image_of_mem _ (List.mem_toFinset.mpr hk'))
  have hkdrop : k.length = k'.length - 7 := by
    rw [← hdrop, List.length_drop]
  omega

/-- C10 counterexample: a checkpoint holding a single parameter with the
empty key carries no wrapper marker, yet the key set presented to the model
equals the saved key set — the stripped dictionary is unchanged — so the
claim's "the key set differs" fails on this checkpoint. -/
theorem C10_counterexample :
    (∀ kv ∈ ([(([] : List Char), (0 : ℕ))] : List (List Char × ℕ)),
      kv.1.take 7 ≠ module_marker) ∧
    (strip_module_keys [(([] : List Char), (0 : ℕ))]).map Prod.fst =
      ([(([] : List Char), (0 : ℕ))] : List (List Char × ℕ)).map Prod.fst ∧
    ((strip_module_keys [(([] : List Char), (0 : ℕ))]).map Prod.fst).toFinset =
      (([(([] : List Char), (0 : ℕ))] : List (List Char × ℕ)).map Prod.fst).toFinset :=
  ⟨by decide, rfl, rfl⟩

/-- C10 amended: the resume path strips the first 7 characters of every
checkpoint parameter key unconditionally — the presented keys are exactly
the saved keys with their first 7 characters dropped, whether or not they
begin with the wrapper marker — and for every checkpoint with at least one
nonempty key, the presented key set differs from the saved key set. -/
theorem C10_strip {α : Type} (st : List (List Char × α))
    (h : ∃ kv ∈ st, kv.1 ≠ []) :
    ((strip_module_keys st).map Prod.fst = (st.map Prod.fst).map (List.drop 7)) ∧
    ((strip_module_keys st).map Prod.fst).toFinset ≠ (st.map Prod.fst).toFinset := by
  have hkeys : (strip_module_keys st).map Prod.fst = (st.map Prod.fst).map (List.drop 7) := by
    rw [strip_module_keys, List.map_map, List.map_map]
    rfl
  refine ⟨hkeys, ?_⟩
  rw [hkeys]
  apply drop7_keys_ne
  obtain ⟨kv, hkv, hne⟩ := h
  exact ⟨kv.1, List.mem_map_of_mem _ hkv, hne⟩

theorem C10_strip_witness :
    ((strip_module_keys [((['w'] : List Char), (0 : ℕ))]).map Prod.fst =
      (([((['w'] : List Char), (0 : ℕ))] : List (List Char × ℕ)).map Prod.fst).map
        (List.drop 7)) ∧
    ((strip_module_keys [((['w'] : List Char), (0 : ℕ))]).map Prod.fst).toFinset ≠
      (([((['w'] : List Char), (0 : ℕ))] : List (List Char × ℕ)).map Prod.fst).toFinset :=
  C10_strip [(['w'], 0)] (by decide)

end SketchGraphs
